import Mathlib

/-!
# mnemosyne daemon: start-up sequencing and shutdown

A shallow embedding of `daemon.go` (package `mnemosyne`): `NewDaemon`,
`Daemon.Run`, `Daemon.Close`, `Daemon.Addr`, `Daemon.initStorage` and
`Daemon.initMonitoring`.

The Go code is stateful and talks to its surroundings (host name lookup,
database connection, credential files, listeners, goroutines).  The embedding
passes the `Daemon` value explicitly, records every call that leaves the
function in a chronological list of `Event`s, and reads the answer of each
such call from an `Env`; an answer may depend on everything that happened
before the call, so the same question can be answered differently later.
-/

namespace Mnemosyne

/-! ## Data model -/

/-- The engine identifiers `StorageEngineInMemory`, `StorageEnginePostgres`,
`StorageEngineRedis` and `MonitoringEnginePrometheus`.  They are string
constants of the package declared outside `daemon.go`; the functions below
take them as a parameter. -/
structure EngineNames where
  StorageEngineInMemory : String
  StorageEnginePostgres : String
  StorageEngineRedis : String
  MonitoringEnginePrometheus : String
  deriving DecidableEq, Repr

/-- The case constants of each `switch` are pairwise different.  The Go
compiler rejects an expression switch that lists one constant twice, so the
constants `daemon.go` compiles against satisfy this: the three storage
engines differ from each other, and the prometheus engine is not `""`. -/
def EngineNames.CasesDistinct (c : EngineNames) : Prop :=
  c.StorageEngineInMemory ≠ c.StorageEnginePostgres ∧
  c.StorageEngineInMemory ≠ c.StorageEngineRedis ∧
  c.StorageEnginePostgres ≠ c.StorageEngineRedis ∧
  c.MonitoringEnginePrometheus ≠ ""

instance (c : EngineNames) : Decidable c.CasesDistinct := by
  unfold EngineNames.CasesDistinct
  exact inferInstance

/-- A `log.Logger` handle. -/
structure Logger where
  id : Nat
  deriving DecidableEq, Repr

/-- A `net.Listener` handle. -/
structure Listener where
  id : Nat
  deriving DecidableEq, Repr

/-- A `*sql.DB` handle, as returned by `initPostgres`. -/
structure DB where
  id : Nat
  deriving DecidableEq, Repr

/-- A `credentials.TransportCredentials` value, as returned by
`credentials.NewServerTLSFromFile`. -/
structure TransportCredentials where
  id : Nat
  deriving DecidableEq, Repr

/-- A `grpc.ServerOption`: one supplied by the caller, or `grpc.Creds(creds)`. -/
inductive ServerOption where
  | given (id : Nat)
  | Creds (creds : TransportCredentials)
  deriving DecidableEq, Repr

/-- The values `Daemon.initMonitoring` stores in `d.monitor`:
`&monitoring{}` and `initPrometheus(namespace, subsystem, {"server": hostname})`,
the latter represented by the arguments of the call. -/
inductive monitoring where
  | empty
  | prometheus (ns subsystem server : String)
  deriving DecidableEq, Repr

/-- A `Storage` interface value: `newPostgresStorage(table, db, monitor)`,
represented by its arguments (`monitor` is `none` for a nil pointer), or any
other implementation. -/
inductive Storage where
  | postgres (table : String) (db : DB) (monitor : Option monitoring)
  | other (id : Nat)
  deriving DecidableEq, Repr

/-- An error value produced outside `daemon.go`. -/
structure ExtError where
  msg : String
  deriving DecidableEq, Repr

/-- The `error` values `daemon.go` returns: one constructor for each
`errors.New` of the file, and `external` for an error handed through from a
callee. -/
inductive Error where
  | inMemoryNotImplemented
  | redisNotImplemented
  | unknownStorageEngine
  | hostnameFailed
  | unknownMonitoringEngine
  | external (e : ExtError)
  deriving DecidableEq, Repr

/-- The text of `err.Error()`. -/
def Error.message : Error → String
  | .inMemoryNotImplemented => "mnemosyne: in memory storage is not implemented yet"
  | .redisNotImplemented => "mnemosyne: redis storage is not implemented yet"
  | .unknownStorageEngine => "mnemosyne: unknown storage engine"
  | .hostnameFailed => "mnemosyne: getting hostname failed"
  | .unknownMonitoringEngine => "mnemosyne: unknown monitoring engine"
  | .external e => e.msg

/-- True when `needle` occurs in `hay` as a contiguous run of characters. -/
def occursIn (needle hay : String) : Bool :=
  hay.toList.tails.any (fun t => needle.toList.isPrefixOf t)

/-- The Go struct `DaemonOpts`. -/
structure DaemonOpts where
  Namespace : String
  Subsystem : String
  MonitoringEngine : String
  TLS : Bool
  TLSCertFile : String
  TLSKeyFile : String
  StorageEngine : String
  StoragePostgresAddress : String
  StoragePostgresTable : String
  Logger : Logger
  RPCOptions : List ServerOption
  RPCListener : Listener
  DebugListener : Option Listener
  deriving DecidableEq, Repr

/-- The Go struct `Daemon`.  `opts` is the content of the `DaemonOpts` the
pointer `d.opts` refers to: the caller of `NewDaemon` holds the same pointer,
so this is also what the caller reads from its own struct.  A nil `monitor`,
`storage` or `debugListener` is `none`.  `rpcListener` is called without a
nil check throughout the file (`Close`, `Addr`, the serve goroutine) and is
a listener here. -/
structure Daemon where
  opts : DaemonOpts
  monitor : Option monitoring
  rpcOptions : List ServerOption
  storage : Option Storage
  logger : Logger
  rpcListener : Listener
  debugListener : Option Listener
  deriving DecidableEq, Repr

/-- A goroutine started by `Run`: the RPC serve loop
(`gRPCServer.Serve(d.rpcListener)`, the server given by its options) or the
debug serve loop (`http.Serve(d.debugListener, nil)`). -/
inductive Task where
  | serveRPC (serverOpts : List ServerOption) (l : Listener)
  | serveDebug (l : Listener)
  deriving DecidableEq, Repr

/-- One call that leaves `daemon.go`, in the order the code makes them. -/
inductive Event where
  | Hostname
  | initPrometheus (ns subsystem server : String)
  | initPostgres (address : String) (logger : Logger)
  | initStorage (s : Storage) (logger : Logger)
  | NewServerTLSFromFile (certFile keyFile : String)
  | NewServer (opts : List ServerOption)
  | newRPCServer (logger : Logger) (storage : Option Storage) (monitor : Option monitoring)
  | RegisterRPCServer
  | go (t : Task)
  | Close (l : Listener)
  | Addr (l : Listener)
  deriving DecidableEq, Repr

/-- The answers of the surroundings.  Each takes the events so far, so the
answer to a repeated call may change. -/
structure Env where
  /-- Result of `os.Hostname()`. -/
  Hostname : List Event → Except ExtError String
  /-- Result of `initPostgres(address, logger)`. -/
  initPostgres : List Event → String → Logger → Except ExtError DB
  /-- Result of the package function `initStorage(storage, logger)`: the
  returned `Storage` (possibly nil) and the returned error (possibly nil). -/
  initStorage : List Event → Storage → Logger → Option Storage × Option ExtError
  /-- Result of `credentials.NewServerTLSFromFile(certFile, keyFile)`. -/
  NewServerTLSFromFile : List Event → String → String → Except ExtError TransportCredentials
  /-- Result of `listener.Close()`. -/
  Close : List Event → Listener → Option ExtError
  /-- Result of `listener.Addr()`. -/
  Addr : Listener → String

/-- What a method leaves behind: the daemon, the events so far, and the
returned error (`none` for nil). -/
structure Outcome where
  d : Daemon
  trace : List Event
  err : Option Error
  deriving DecidableEq, Repr

/-! ## Operations -/

/-- The Go function `NewDaemon`.  The two defaults are written through the
pointer `d.opts`, that is into the struct the caller passed. -/
def NewDaemon (c : EngineNames) (opts : DaemonOpts) : Daemon :=
  let d : Daemon :=
    { opts := opts
      monitor := none
      rpcOptions := opts.RPCOptions
      storage := none
      logger := opts.Logger
      rpcListener := opts.RPCListener
      debugListener := opts.DebugListener }
  let d : Daemon :=
    if d.opts.StorageEngine = "" then
      { d with opts := { d.opts with StorageEngine := c.StorageEnginePostgres } }
    else d
  let d : Daemon :=
    if d.opts.StoragePostgresTable = "" then
      { d with opts := { d.opts with StoragePostgresTable := "session" } }
    else d
  d

/-- The Go method `Daemon.initMonitoring`. -/
def Daemon.initMonitoring (c : EngineNames) (env : Env) (tr : List Event) (d : Daemon) :
    Outcome :=
  match env.Hostname tr with
  | .error _ => ⟨d, tr ++ [Event.Hostname], some Error.hostnameFailed⟩
  | .ok hostname =>
    if d.opts.MonitoringEngine = "" then
      ⟨{ d with monitor := some monitoring.empty }, tr ++ [Event.Hostname], none⟩
    else if d.opts.MonitoringEngine = c.MonitoringEnginePrometheus then
      ⟨{ d with monitor := some (monitoring.prometheus d.opts.Namespace d.opts.Subsystem hostname) },
        tr ++ [Event.Hostname, Event.initPrometheus d.opts.Namespace d.opts.Subsystem hostname],
        none⟩
    else
      ⟨d, tr ++ [Event.Hostname], some Error.unknownMonitoringEngine⟩

/-- The Go method `Daemon.initStorage`.  The cases are tried in the order of
the `switch`: in-memory, postgres, redis, default.  In the postgres case
`d.storage` receives whatever the package function `initStorage` returned,
also when it returned an error. -/
def Daemon.initStorage (c : EngineNames) (env : Env) (tr : List Event) (d : Daemon) :
    Outcome :=
  if d.opts.StorageEngine = c.StorageEngineInMemory then
    ⟨d, tr, some Error.inMemoryNotImplemented⟩
  else if d.opts.StorageEngine = c.StorageEnginePostgres then
    match env.initPostgres tr d.opts.StoragePostgresAddress d.logger with
    | .error e =>
      ⟨d, tr ++ [Event.initPostgres d.opts.StoragePostgresAddress d.logger],
        some (Error.external e)⟩
    | .ok db =>
      let tr1 := tr ++ [Event.initPostgres d.opts.StoragePostgresAddress d.logger]
      let s := Storage.postgres d.opts.StoragePostgresTable db d.monitor
      let r := env.initStorage tr1 s d.logger
      ⟨{ d with storage := r.1 }, tr1 ++ [Event.initStorage s d.logger],
        r.2.map Error.external⟩
  else if d.opts.StorageEngine = c.StorageEngineRedis then
    ⟨d, tr, some Error.redisNotImplemented⟩
  else
    ⟨d, tr, some Error.unknownStorageEngine⟩

/-- Lines 80 to 104 of `Daemon.Run`: build the gRPC server from the
accumulated options, build and register the session service, start the RPC
serve goroutine, start the debug serve goroutine when `d.debugListener` is
not nil, and return nil. -/
def Daemon.startServing (tr : List Event) (d : Daemon) : Outcome :=
  let tr1 := tr ++ [Event.NewServer d.rpcOptions,
                    Event.newRPCServer d.logger d.storage d.monitor,
                    Event.RegisterRPCServer,
                    Event.go (Task.serveRPC d.rpcOptions d.rpcListener)]
  match d.debugListener with
  | some l => ⟨d, tr1 ++ [Event.go (Task.serveDebug l)], none⟩
  | none => ⟨d, tr1, none⟩

/-- Lines 72 to 104 of `Daemon.Run`: the TLS step followed by
`startServing`. -/
def Daemon.loadCredentials (env : Env) (tr : List Event) (d : Daemon) : Outcome :=
  if d.opts.TLS then
    match env.NewServerTLSFromFile tr d.opts.TLSCertFile d.opts.TLSKeyFile with
    | .error e =>
      ⟨d, tr ++ [Event.NewServerTLSFromFile d.opts.TLSCertFile d.opts.TLSKeyFile],
        some (Error.external e)⟩
    | .ok creds =>
      Daemon.startServing
        (tr ++ [Event.NewServerTLSFromFile d.opts.TLSCertFile d.opts.TLSKeyFile])
        { d with rpcOptions := d.rpcOptions ++ [ServerOption.Creds creds] }
  else
    Daemon.startServing tr d

/-- The Go method `Daemon.Run`. -/
def Daemon.Run (c : EngineNames) (env : Env) (tr : List Event) (d : Daemon) : Outcome :=
  let r1 := d.initMonitoring c env tr
  match r1.err with
  | some e => ⟨r1.d, r1.trace, some e⟩
  | none =>
    let r2 := r1.d.initStorage c env r1.trace
    match r2.err with
    | some e => ⟨r2.d, r2.trace, some e⟩
    | none => r2.d.loadCredentials env r2.trace

/-- The Go method `Daemon.Close`. -/
def Daemon.Close (env : Env) (tr : List Event) (d : Daemon) : Outcome :=
  match env.Close tr d.rpcListener with
  | some e => ⟨d, tr ++ [Event.Close d.rpcListener], some (Error.external e)⟩
  | none =>
    match d.debugListener with
    | some l =>
      ⟨d, tr ++ [Event.Close d.rpcListener, Event.Close l],
        (env.Close (tr ++ [Event.Close d.rpcListener]) l).map Error.external⟩
    | none => ⟨d, tr ++ [Event.Close d.rpcListener], none⟩

/-- The Go method `Daemon.Addr`: the address, with the daemon and the events
after the call. -/
def Daemon.Addr (env : Env) (tr : List Event) (d : Daemon) : String × Daemon × List Event :=
  (env.Addr d.rpcListener, d, tr ++ [Event.Addr d.rpcListener])

/-- The operations of a `Daemon`. -/
inductive Op where
  | Run
  | Close
  | Addr
  deriving DecidableEq, Repr

/-- The daemon and the events after one operation (its returned value is
dropped). -/
def Op.apply (c : EngineNames) (env : Env) (op : Op) (s : Daemon × List Event) :
    Daemon × List Event :=
  match op with
  | .Run => ((s.1.Run c env s.2).d, (s.1.Run c env s.2).trace)
  | .Close => ((s.1.Close env s.2).d, (s.1.Close env s.2).trace)
  | .Addr => ((s.1.Addr env s.2).2.1, (s.1.Addr env s.2).2.2)

/-- The daemon and the events after a sequence of operations, first to last. -/
def applyOps (c : EngineNames) (env : Env) (ops : List Op) (s : Daemon × List Event) :
    Daemon × List Event :=
  ops.foldl (fun acc op => op.apply c env acc) s

/-- The goroutines started in a list of events, in order. -/
def tasksStarted (tr : List Event) : List Task :=
  tr.filterMap (fun ev => match ev with
    | Event.go t => some t
    | _ => none)

/-- The storages handed to the package function `initStorage` in a list of
events, in order. -/
def storagesBuilt (tr : List Event) : List Storage :=
  tr.filterMap (fun ev => match ev with
    | Event.initStorage s _ => some s
    | _ => none)

/-- Modelled from the spec: the package function `initStorage(storage, logger)`
is called by `daemon.go` but declared outside it.  The spec gives the Storage
contract as a construction function "returning a ready-to-use store or a
construction error": whenever the returned error is nil, the returned
`Storage` is not nil. -/
def Env.StorageContract (env : Env) : Prop :=
  ∀ (tr : List Event) (s : Storage) (lg : Logger),
    (env.initStorage tr s lg).2 = none → (env.initStorage tr s lg).1 ≠ none

/-- The outcome of the first two steps of `Run`: `initStorage` applied to what
`initMonitoring` left behind. -/
def Daemon.afterStorage (c : EngineNames) (env : Env) (tr : List Event) (d : Daemon) :
    Outcome :=
  (d.initMonitoring c env tr).d.initStorage c env (d.initMonitoring c env tr).trace

/-- The start-up step an event belongs to: 0 monitor, 1 storage, 2 TLS
credentials, 3 server construction, 4 serve goroutines; 5 for the events of
`Close` and `Addr`. -/
def Event.step : Event → Nat
  | .Hostname => 0
  | .initPrometheus _ _ _ => 0
  | .initPostgres _ _ => 1
  | .initStorage _ _ => 1
  | .NewServerTLSFromFile _ _ => 2
  | .NewServer _ => 3
  | .newRPCServer _ _ _ => 3
  | .RegisterRPCServer => 3
  | .go _ => 4
  | .Close _ => 5
  | .Addr _ => 5

/-- The events a method added to the events `tr` it started from. -/
def Outcome.emitted (r : Outcome) (tr : List Event) : List Event :=
  r.trace.drop tr.length

/-! ## Sample inputs -/

/-- The identifiers the released package declares. -/
def sampleNames : EngineNames :=
  ⟨"in_memory", "postgres", "redis", "prometheus"⟩

/-- Options with monitoring off, TLS off, postgres storage and both listeners. -/
def sampleOpts : DaemonOpts :=
  { Namespace := ""
    Subsystem := "mnemosyne"
    MonitoringEngine := ""
    TLS := false
    TLSCertFile := ""
    TLSKeyFile := ""
    StorageEngine := "postgres"
    StoragePostgresAddress := "postgres://localhost:5432"
    StoragePostgresTable := "session"
    Logger := ⟨0⟩
    RPCOptions := []
    RPCListener := ⟨1⟩
    DebugListener := some ⟨2⟩ }

/-- Surroundings in which every call succeeds; each database connection is a
new handle, numbered by the count of events before it. -/
def envUp : Env :=
  { Hostname := fun _ => .ok "host"
    initPostgres := fun tr _ _ => .ok ⟨tr.length⟩
    initStorage := fun _ s _ => (some s, none)
    NewServerTLSFromFile := fun _ _ _ => .ok ⟨7⟩
    Close := fun _ _ => none
    Addr := fun _ => "127.0.0.1:8080" }

/-- As `envUp`, but the local host name cannot be determined. -/
def envHostnameDown : Env :=
  { envUp with Hostname := fun _ => .error ⟨"hostname: lookup failed"⟩ }

/-- As `envUp`, but the certificate file does not exist. -/
def envNoCert : Env :=
  { envUp with NewServerTLSFromFile := fun _ _ _ => .error ⟨"open cert.pem: no such file"⟩ }

/-- As `envUp`, but closing a listener fails. -/
def envCloseFails : Env :=
  { envUp with Close := fun _ _ => some ⟨"use of closed network connection"⟩ }

/-- As `envUp`, but the package function `initStorage` fails. -/
def envStorageFails : Env :=
  { envUp with initStorage := fun _ _ _ => (none, some ⟨"table is missing"⟩) }

/-! ## Frame lemmas -/

theorem initMonitoring_frame (c : EngineNames) (env : Env) (tr : List Event) (d : Daemon) :
    (d.initMonitoring c env tr).d = { d with monitor := (d.initMonitoring c env tr).d.monitor } := by
  unfold Daemon.initMonitoring
  split
  · rfl
  · split_ifs <;> rfl

theorem initStorage_frame (c : EngineNames) (env : Env) (tr : List Event) (d : Daemon) :
    (d.initStorage c env tr).d = { d with storage := (d.initStorage c env tr).d.storage } := by
  unfold Daemon.initStorage
  split_ifs
  · rfl
  · split <;> rfl
  · rfl
  · rfl

/-! ## Monitor construction -/

/-- C1, as the code has it: for a Daemon whose MonitoringEngine is the empty
string, `initMonitoring` first asks for the local host name.  When that lookup
succeeds it returns no error, sets the monitor to the no-op monitor and
changes nothing else; when the lookup fails it returns the "getting hostname
failed" error and leaves the Daemon, its monitor included, as it was. -/
theorem initMonitoring_empty_engine (c : EngineNames) (env : Env) (tr : List Event)
    (d : Daemon) (hEngine : d.opts.MonitoringEngine = "") :
    (∀ hostname, env.Hostname tr = .ok hostname →
      d.initMonitoring c env tr =
        ⟨{ d with monitor := some monitoring.empty }, tr ++ [Event.Hostname], none⟩) ∧
    (∀ e, env.Hostname tr = .error e →
      d.initMonitoring c env tr = ⟨d, tr ++ [Event.Hostname], some Error.hostnameFailed⟩) := by
  constructor
  · intro hostname hh
    simp [Daemon.initMonitoring, hh, hEngine]
  · intro e he
    simp [Daemon.initMonitoring, he]

/-- Witness for `initMonitoring_empty_engine`: the sample options, host name
lookup succeeding. -/
theorem initMonitoring_empty_engine_witness :
    (NewDaemon sampleNames sampleOpts).opts.MonitoringEngine = "" ∧
    (NewDaemon sampleNames sampleOpts).initMonitoring sampleNames envUp [] =
      ⟨{ NewDaemon sampleNames sampleOpts with monitor := some monitoring.empty },
        [Event.Hostname], none⟩ :=
  ⟨by decide,
    (initMonitoring_empty_engine sampleNames envUp [] (NewDaemon sampleNames sampleOpts)
      (by decide)).1 "host" rfl⟩

/-- C1 fails as stated: with an empty MonitoringEngine and a failing host
name lookup, `initMonitoring` returns an error and sets no monitor. -/
theorem initMonitoring_empty_engine_hostname_down :
    (NewDaemon sampleNames sampleOpts).opts.MonitoringEngine = "" ∧
    ((NewDaemon sampleNames sampleOpts).initMonitoring sampleNames envHostnameDown []).err
      = some Error.hostnameFailed ∧
    ((NewDaemon sampleNames sampleOpts).initMonitoring sampleNames envHostnameDown []).d.monitor
      = none := by
  decide

/-- C6, as the code has it: for a MonitoringEngine other than the empty
string and prometheus, `initMonitoring` always fails and leaves the Daemon,
its monitor included, as it was; the error is "unknown monitoring engine"
when the host name lookup succeeds and "getting hostname failed" when it
fails.  `Run` returns that same error, having made no call but the host name
lookup, and starts no serve task. -/
theorem initMonitoring_unknown_engine (c : EngineNames) (env : Env) (tr : List Event)
    (d : Daemon) (hEmpty : d.opts.MonitoringEngine ≠ "")
    (hProm : d.opts.MonitoringEngine ≠ c.MonitoringEnginePrometheus) :
    (∀ hostname, env.Hostname tr = .ok hostname →
      d.initMonitoring c env tr =
        ⟨d, tr ++ [Event.Hostname], some Error.unknownMonitoringEngine⟩) ∧
    (∀ e, env.Hostname tr = .error e →
      d.initMonitoring c env tr = ⟨d, tr ++ [Event.Hostname], some Error.hostnameFailed⟩) ∧
    ((d.initMonitoring c env tr).err = some Error.unknownMonitoringEngine ∨
      (d.initMonitoring c env tr).err = some Error.hostnameFailed) ∧
    (d.initMonitoring c env tr).d = d ∧
    d.Run c env tr = d.initMonitoring c env tr ∧
    (d.Run c env tr).trace = tr ++ [Event.Hostname] ∧
    tasksStarted (d.Run c env tr).trace = tasksStarted tr := by
  have hOk : ∀ hostname, env.Hostname tr = .ok hostname →
      d.initMonitoring c env tr =
        ⟨d, tr ++ [Event.Hostname], some Error.unknownMonitoringEngine⟩ := by
    intro hostname hh
    simp [Daemon.initMonitoring, hh, hEmpty, hProm]
  have hErr : ∀ e, env.Hostname tr = .error e →
      d.initMonitoring c env tr = ⟨d, tr ++ [Event.Hostname], some Error.hostnameFailed⟩ := by
    intro e he
    simp [Daemon.initMonitoring, he]
  refine ⟨hOk, hErr, ?_⟩
  cases hh : env.Hostname tr with
  | error e =>
    have h := hErr e hh
    simp [Daemon.Run, h, tasksStarted]
  | ok hostname =>
    have h := hOk hostname hh
    simp [Daemon.Run, h, tasksStarted]

/-- Witness for `initMonitoring_unknown_engine`: the engine "statsd". -/
theorem initMonitoring_unknown_engine_witness :
    ({ NewDaemon sampleNames sampleOpts with
        opts := { sampleOpts with MonitoringEngine := "statsd" } } : Daemon).initMonitoring
      sampleNames envUp [] =
      ⟨{ NewDaemon sampleNames sampleOpts with
          opts := { sampleOpts with MonitoringEngine := "statsd" } },
        [Event.Hostname], some Error.unknownMonitoringEngine⟩ :=
  (initMonitoring_unknown_engine sampleNames envUp []
    { NewDaemon sampleNames sampleOpts with
      opts := { sampleOpts with MonitoringEngine := "statsd" } }
    (by decide) (by decide)).1 "host" rfl

/-- C6 fails as stated: with the engine "statsd" and a failing host name
lookup, the error `initMonitoring` and `Run` return is "getting hostname
failed", not "unknown monitoring engine". -/
theorem initMonitoring_unknown_engine_hostname_down :
    (({ NewDaemon sampleNames sampleOpts with
        opts := { sampleOpts with MonitoringEngine := "statsd" } } : Daemon).initMonitoring
      sampleNames envHostnameDown []).err = some Error.hostnameFailed ∧
    (({ NewDaemon sampleNames sampleOpts with
        opts := { sampleOpts with MonitoringEngine := "statsd" } } : Daemon).Run
      sampleNames envHostnameDown []).err ≠ some Error.unknownMonitoringEngine := by
  decide

/-! ## Storage construction -/

/-- C2: for a StorageEngine that is none of the three named engines,
`initStorage` returns the "unknown storage engine" error; for the in-memory
and the redis engine it returns an error whose message contains "not
implemented" and which differs, also in its message, from the unknown-engine
error.  In all three cases the Daemon (its storage included) is unchanged and
no call is made, in particular no Postgres connection is attempted. -/
theorem initStorage_rejects (c : EngineNames) (hc : c.CasesDistinct) (env : Env)
    (tr : List Event) (d : Daemon) :
    (d.opts.StorageEngine ≠ c.StorageEnginePostgres →
      d.opts.StorageEngine ≠ c.StorageEngineInMemory →
      d.opts.StorageEngine ≠ c.StorageEngineRedis →
      d.initStorage c env tr = ⟨d, tr, some Error.unknownStorageEngine⟩) ∧
    (d.opts.StorageEngine = c.StorageEngineInMemory →
      d.initStorage c env tr = ⟨d, tr, some Error.inMemoryNotImplemented⟩) ∧
    (d.opts.StorageEngine = c.StorageEngineRedis →
      d.initStorage c env tr = ⟨d, tr, some Error.redisNotImplemented⟩) ∧
    occursIn "not implemented" Error.inMemoryNotImplemented.message = true ∧
    occursIn "not implemented" Error.redisNotImplemented.message = true ∧
    occursIn "not implemented" Error.unknownStorageEngine.message = false ∧
    Error.inMemoryNotImplemented ≠ Error.unknownStorageEngine ∧
    Error.redisNotImplemented ≠ Error.unknownStorageEngine ∧
    Error.inMemoryNotImplemented.message ≠ Error.unknownStorageEngine.message ∧
    Error.redisNotImplemented.message ≠ Error.unknownStorageEngine.message := by
  obtain ⟨h1, h2, h3, _⟩ := hc
  refine ⟨?_, ?_, ?_, by decide, by decide, by decide, by decide, by decide, by decide,
    by decide⟩
  · intro hp hm hr
    simp [Daemon.initStorage, hp, hm, hr]
  · intro hm
    simp [Daemon.initStorage, hm]
  · intro hr
    have e1 : c.StorageEngineRedis ≠ c.StorageEngineInMemory := fun h => h2 h.symm
    have e2 : c.StorageEngineRedis ≠ c.StorageEnginePostgres := fun h => h3 h.symm
    simp [Daemon.initStorage, hr, e1, e2]

/-- Witness for `initStorage_rejects`: the released identifiers and the redis
engine. -/
theorem initStorage_rejects_witness :
    sampleNames.CasesDistinct ∧
    ({ NewDaemon sampleNames sampleOpts with
        opts := { sampleOpts with StorageEngine := "redis" } } : Daemon).initStorage
      sampleNames envUp [] =
      ⟨{ NewDaemon sampleNames sampleOpts with
          opts := { sampleOpts with StorageEngine := "redis" } },
        [], some Error.redisNotImplemented⟩ :=
  ⟨by decide,
    (initStorage_rejects sampleNames (by decide) envUp []
      { NewDaemon sampleNames sampleOpts with
        opts := { sampleOpts with StorageEngine := "redis" } }).2.2.1 rfl⟩

/-! ## Shape of the outcomes -/

theorem emitted_append (d : Daemon) (tr evs : List Event) (e : Option Error) :
    (Outcome.mk d (tr ++ evs) e).emitted tr = evs := by
  simp [Outcome.emitted]

theorem tasksStarted_append (xs ys : List Event) :
    tasksStarted (xs ++ ys) = tasksStarted xs ++ tasksStarted ys := by
  simp [tasksStarted]

theorem tasksStarted_of_step_lt (evs : List Event) (h : ∀ ev ∈ evs, ev.step < 4) :
    tasksStarted evs = [] := by
  induction evs with
  | nil => rfl
  | cons ev rest ih =>
    have hrest : tasksStarted rest = [] := ih (fun x hx => h x (List.mem_cons_of_mem _ hx))
    have hev := h ev (List.mem_cons_self _ _)
    cases ev <;> simp_all [tasksStarted, Event.step]

/-- Either `initMonitoring` fails, leaving the daemon as it was and having
made the host name lookup only, or it succeeds having set the monitor. -/
theorem initMonitoring_cases (c : EngineNames) (env : Env) (tr : List Event) (d : Daemon) :
    (∃ e, d.initMonitoring c env tr = ⟨d, tr ++ [Event.Hostname], some e⟩) ∨
    (∃ m evs, d.initMonitoring c env tr =
        ⟨{ d with monitor := some m }, tr ++ Event.Hostname :: evs, none⟩ ∧
      ∀ ev ∈ evs, ev.step = 0) := by
  unfold Daemon.initMonitoring
  cases env.Hostname tr with
  | error e => exact Or.inl ⟨_, rfl⟩
  | ok hostname =>
    simp only
    split_ifs
    · exact Or.inr ⟨monitoring.empty, [], rfl, by simp⟩
    · exact Or.inr ⟨monitoring.prometheus d.opts.Namespace d.opts.Subsystem hostname,
        [Event.initPrometheus d.opts.Namespace d.opts.Subsystem hostname], rfl,
        by simp [Event.step]⟩
    · exact Or.inl ⟨_, rfl⟩

/-- The three ways `initStorage` ends: rejected without any call; the
Postgres connection failed; or the package function `initStorage` was called
on a Postgres storage built with the daemon's monitor, and its two results
became `d.storage` and the returned error. -/
theorem initStorage_cases (c : EngineNames) (env : Env) (tr : List Event) (d : Daemon) :
    (∃ e, d.initStorage c env tr = ⟨d, tr, some e⟩) ∨
    (∃ e, d.initStorage c env tr =
        ⟨d, tr ++ [Event.initPostgres d.opts.StoragePostgresAddress d.logger],
          some (Error.external e)⟩) ∨
    (∃ db st e, d.initStorage c env tr =
        ⟨{ d with storage := st },
          tr ++ [Event.initPostgres d.opts.StoragePostgresAddress d.logger,
            Event.initStorage (Storage.postgres d.opts.StoragePostgresTable db d.monitor)
              d.logger],
          e⟩) := by
  unfold Daemon.initStorage
  split_ifs
  · exact Or.inl ⟨_, rfl⟩
  · cases env.initPostgres tr d.opts.StoragePostgresAddress d.logger with
    | error e => exact Or.inr (Or.inl ⟨e, rfl⟩)
    | ok db =>
      exact Or.inr (Or.inr ⟨db,
        (env.initStorage (tr ++ [Event.initPostgres d.opts.StoragePostgresAddress d.logger])
          (Storage.postgres d.opts.StoragePostgresTable db d.monitor) d.logger).1,
        (env.initStorage (tr ++ [Event.initPostgres d.opts.StoragePostgresAddress d.logger])
          (Storage.postgres d.opts.StoragePostgresTable db d.monitor) d.logger).2.map
            Error.external,
        by simp⟩)
  · exact Or.inl ⟨_, rfl⟩
  · exact Or.inl ⟨_, rfl⟩

/-- The two ways the rest of `Run` ends: the credential load failed, or the
server was built and the serve goroutines were started. -/
theorem loadCredentials_cases (env : Env) (tr : List Event) (d : Daemon) :
    (∃ e, d.opts.TLS = true ∧
      env.NewServerTLSFromFile tr d.opts.TLSCertFile d.opts.TLSKeyFile = .error e ∧
      d.loadCredentials env tr =
        ⟨d, tr ++ [Event.NewServerTLSFromFile d.opts.TLSCertFile d.opts.TLSKeyFile],
          some (Error.external e)⟩) ∨
    (∃ pre opts, (∀ ev ∈ pre, ev.step = 2) ∧
      d.loadCredentials env tr =
        ⟨{ d with rpcOptions := opts },
          tr ++ (pre ++ [Event.NewServer opts, Event.newRPCServer d.logger d.storage d.monitor,
            Event.RegisterRPCServer, Event.go (Task.serveRPC opts d.rpcListener)] ++
            d.debugListener.toList.map (fun l => Event.go (Task.serveDebug l))),
          none⟩) := by
  unfold Daemon.loadCredentials
  split_ifs with hTLS
  · split
    · next e he => exact Or.inl ⟨e, hTLS, he, rfl⟩
    · next creds _ =>
      refine Or.inr ⟨[Event.NewServerTLSFromFile d.opts.TLSCertFile d.opts.TLSKeyFile],
        d.rpcOptions ++ [ServerOption.Creds creds], by simp [Event.step], ?_⟩
      obtain ⟨o, m, ro, st, lg, rl, dl⟩ := d
      cases dl <;> simp [Daemon.startServing]
  · refine Or.inr ⟨[], d.rpcOptions, by simp, ?_⟩
    obtain ⟨o, m, ro, st, lg, rl, dl⟩ := d
    cases dl <;> simp [Daemon.startServing]

theorem Run_of_monitoring_error (c : EngineNames) (env : Env) (tr : List Event) (d : Daemon)
    (e : Error) (h : (d.initMonitoring c env tr).err = some e) :
    d.Run c env tr = d.initMonitoring c env tr := by
  unfold Daemon.Run
  simp only [h]
  cases hr : d.initMonitoring c env tr
  simp_all

theorem Run_of_storage_error (c : EngineNames) (env : Env) (tr : List Event) (d : Daemon)
    (e : Error) (hMon : (d.initMonitoring c env tr).err = none)
    (h : (d.afterStorage c env tr).err = some e) :
    d.Run c env tr = d.afterStorage c env tr := by
  unfold Daemon.afterStorage at h
  unfold Daemon.Run Daemon.afterStorage
  simp only [hMon, h]
  cases hr : (d.initMonitoring c env tr).d.initStorage c env (d.initMonitoring c env tr).trace
  simp_all

theorem Run_of_storage_ok (c : EngineNames) (env : Env) (tr : List Event) (d : Daemon)
    (hMon : (d.initMonitoring c env tr).err = none)
    (h : (d.afterStorage c env tr).err = none) :
    d.Run c env tr =
      (d.afterStorage c env tr).d.loadCredentials env (d.afterStorage c env tr).trace := by
  unfold Daemon.afterStorage at h
  unfold Daemon.Run Daemon.afterStorage
  simp only [hMon, h]

/-- What the first two steps of `Run` leave untouched. -/
theorem afterStorage_frame (c : EngineNames) (env : Env) (tr : List Event) (d : Daemon) :
    (d.afterStorage c env tr).d.opts = d.opts ∧
    (d.afterStorage c env tr).d.rpcOptions = d.rpcOptions ∧
    (d.afterStorage c env tr).d.logger = d.logger ∧
    (d.afterStorage c env tr).d.rpcListener = d.rpcListener ∧
    (d.afterStorage c env tr).d.debugListener = d.debugListener ∧
    (d.afterStorage c env tr).d.monitor = (d.initMonitoring c env tr).d.monitor := by
  unfold Daemon.afterStorage
  rw [initStorage_frame]
  refine ⟨?_, ?_, ?_, ?_, ?_, ?_⟩ <;> simp only <;> rw [initMonitoring_frame]

/-- The events of the first two steps of `Run` are monitor and storage events,
in that order, and a storage handed to the package function `initStorage`
carries the monitor `initMonitoring` left in the daemon. -/
theorem afterStorage_trace (c : EngineNames) (env : Env) (tr : List Event) (d : Daemon) :
    ∃ evs, (d.afterStorage c env tr).trace = tr ++ evs ∧
      (∀ ev ∈ evs, ev.step ≤ 1) ∧
      List.Pairwise (fun a b => a ≤ b) (evs.map Event.step) ∧
      ∀ s lg, Event.initStorage s lg ∈ evs →
        ∃ table db, s = Storage.postgres table db (d.initMonitoring c env tr).d.monitor := by
  unfold Daemon.afterStorage
  rcases initMonitoring_cases c env tr d with ⟨e, h⟩ | ⟨m, evs, h, hevs⟩
  · rw [h]
    rcases initStorage_cases c env (tr ++ [Event.Hostname]) d with ⟨e, h2⟩ | ⟨e, h2⟩ | ⟨db, st, e, h2⟩
    · rw [h2]; exact ⟨[Event.Hostname], by simp, by simp [Event.step], by simp, by simp⟩
    · rw [h2]
      exact ⟨[Event.Hostname, Event.initPostgres d.opts.StoragePostgresAddress d.logger],
        by simp, by simp [Event.step], by simp [Event.step], by simp⟩
    · rw [h2]
      exact ⟨[Event.Hostname, Event.initPostgres d.opts.StoragePostgresAddress d.logger,
          Event.initStorage (Storage.postgres d.opts.StoragePostgresTable db d.monitor)
            d.logger],
        by simp, by simp [Event.step], by simp [Event.step], by
          intro s lg hs
          simp at hs
          exact ⟨_, _, hs.1⟩⟩
  · rw [h]
    have hstep : ∀ ev ∈ evs, ev.step ≤ 1 := fun ev hev => by rw [hevs ev hev]; exact Nat.zero_le 1
    have hsorted : List.Pairwise (fun a b => a ≤ b) (evs.map Event.step) := by
      rw [List.pairwise_map]
      exact List.Pairwise.imp_of_mem (R := fun _ _ => True)
        (fun ha hb _ => by rw [hevs _ ha, hevs _ hb])
        (List.pairwise_of_forall (fun _ _ => trivial))
    have hnone : ∀ s lg, Event.initStorage s lg ∉ evs := fun s lg hmem => by
      have := hevs _ hmem
      simp [Event.step] at this
    rcases initStorage_cases c env (tr ++ Event.Hostname :: evs) { d with monitor := some m }
      with ⟨e, h2⟩ | ⟨e, h2⟩ | ⟨db, st, e, h2⟩
    · rw [h2]
      refine ⟨Event.Hostname :: evs, by simp, ?_, ?_, ?_⟩
      · intro ev hev
        rcases List.mem_cons.1 hev with rfl | hev
        · simp [Event.step]
        · exact hstep ev hev
      · simp only [List.map_cons, List.pairwise_cons]
        exact ⟨fun b _ => by simp [Event.step], hsorted⟩
      · intro s lg hs
        rcases List.mem_cons.1 hs with hs | hs
        · cases hs
        · exact absurd hs (hnone s lg)
    · rw [h2]
      refine ⟨Event.Hostname :: evs ++
        [Event.initPostgres d.opts.StoragePostgresAddress d.logger], by simp, ?_, ?_, ?_⟩
      · intro ev hev
        simp only [List.cons_append, List.mem_cons, List.mem_append, List.mem_singleton,
          List.not_mem_nil, or_false] at hev
        rcases hev with rfl | hev | rfl
        · simp [Event.step]
        · exact hstep ev hev
        · simp [Event.step]
      · simp only [List.cons_append, List.map_cons, List.map_append, List.pairwise_cons,
          List.pairwise_append]
        refine ⟨fun b _ => by simp [Event.step], hsorted, by simp, ?_⟩
        intro a ha b hb
        simp only [List.mem_map] at ha
        obtain ⟨ev, hev, rfl⟩ := ha
        rw [hevs ev hev]
        exact Nat.zero_le _
      · intro s lg hs
        simp only [List.cons_append, List.mem_cons, List.mem_append, List.mem_singleton,
          List.not_mem_nil, or_false] at hs
        rcases hs with hs | hs | hs
        · cases hs
        · exact absurd hs (hnone s lg)
        · cases hs
    · rw [h2]
      refine ⟨Event.Hostname :: evs ++
        [Event.initPostgres d.opts.StoragePostgresAddress d.logger,
          Event.initStorage (Storage.postgres d.opts.StoragePostgresTable db (some m))
            d.logger], by simp, ?_, ?_, ?_⟩
      · intro ev hev
        simp only [List.cons_append, List.mem_cons, List.mem_append,
          List.not_mem_nil, or_false] at hev
        rcases hev with rfl | hev | rfl | rfl
        · simp [Event.step]
        · exact hstep ev hev
        · simp [Event.step]
        · simp [Event.step]
      · simp only [List.cons_append, List.map_cons, List.map_append, List.pairwise_cons,
          List.pairwise_append]
        refine ⟨fun b _ => by simp [Event.step], hsorted, by simp [Event.step], ?_⟩
        intro a ha b hb
        simp only [List.mem_map] at ha
        obtain ⟨ev, hev, rfl⟩ := ha
        rw [hevs ev hev]
        exact Nat.zero_le _
      · intro s lg hs
        simp only [List.cons_append, List.mem_cons, List.mem_append,
          List.not_mem_nil, or_false] at hs
        rcases hs with hs | hs | hs | hs
        · cases hs
        · exact absurd hs (hnone s lg)
        · cases hs
        · simp only [Event.initStorage.injEq] at hs
          exact ⟨_, _, hs.1⟩

/-- The events of the rest of `Run` are credential, server and goroutine
events, in that order. -/
theorem loadCredentials_trace (env : Env) (tr : List Event) (d : Daemon) :
    ∃ more, (d.loadCredentials env tr).trace = tr ++ more ∧
      (∀ ev ∈ more, 2 ≤ ev.step) ∧
      List.Pairwise (fun a b => a ≤ b) (more.map Event.step) := by
  rcases loadCredentials_cases env tr d with ⟨e, _, _, h⟩ | ⟨pre, opts, hpre, h⟩
  · rw [h]
    exact ⟨[Event.NewServerTLSFromFile d.opts.TLSCertFile d.opts.TLSKeyFile], rfl,
      by simp [Event.step], by simp⟩
  · rw [h]
    refine ⟨_, rfl, ?_, ?_⟩
    · intro ev hev
      simp only [List.mem_append, List.mem_cons, List.mem_map, List.not_mem_nil,
        or_false] at hev
      rcases hev with (hev | rfl | rfl | rfl | rfl) | ⟨l, _, rfl⟩
      · rw [hpre ev hev]
      all_goals simp [Event.step]
    · have hsorted : List.Pairwise (fun a b => a ≤ b) (pre.map Event.step) := by
        rw [List.pairwise_map]
        exact List.Pairwise.imp_of_mem (R := fun _ _ => True)
          (fun ha hb _ => by rw [hpre _ ha, hpre _ hb])
          (List.pairwise_of_forall (fun _ _ => trivial))
      have hdbg : List.Pairwise (fun a b => a ≤ b)
          ((d.debugListener.toList.map (fun l => Event.go (Task.serveDebug l))).map
            Event.step) := by
        cases d.debugListener <;> simp
      simp only [List.map_append, List.pairwise_append]
      refine ⟨⟨hsorted, by simp [Event.step], ?_⟩, hdbg, ?_⟩
      · intro a ha b hb
        simp only [List.mem_map] at ha
        obtain ⟨ev, hev, rfl⟩ := ha
        rw [hpre ev hev]
        simp [Event.step] at hb
        omega
      · intro a ha b hb
        have hb4 : b = 4 := by
          cases hd : d.debugListener <;> simp [hd, Event.step] at hb
          exact hb
        have ha4 : a ≤ 4 := by
          simp only [List.mem_append, List.mem_map] at ha
          rcases ha with ⟨ev, hev, rfl⟩ | ha
          · rw [hpre ev hev]; omega
          · simp [Event.step] at ha
            omega
        omega

/-- The events one `Run` adds are ordered by start-up step, and a storage
handed to the package function `initStorage` carries the monitor that
`initMonitoring` left in the daemon. -/
theorem Run_trace (c : EngineNames) (env : Env) (tr : List Event) (d : Daemon) :
    ∃ evs, (d.Run c env tr).trace = tr ++ evs ∧
      List.Pairwise (fun a b => a ≤ b) (evs.map Event.step) ∧
      ∀ s lg, Event.initStorage s lg ∈ evs →
        ∃ table db, s = Storage.postgres table db (d.initMonitoring c env tr).d.monitor := by
  obtain ⟨evs, htr, hstep, hsorted, hsto⟩ := afterStorage_trace c env tr d
  cases hMon : (d.initMonitoring c env tr).err with
  | some e =>
    rw [Run_of_monitoring_error c env tr d e hMon]
    rcases initMonitoring_cases c env tr d with ⟨e2, h⟩ | ⟨m, evs2, h, _⟩
    · rw [h]
      exact ⟨[Event.Hostname], rfl, by simp, by simp⟩
    · rw [h] at hMon
      cases hMon
  | none =>
    cases hSto : (d.afterStorage c env tr).err with
    | some e =>
      rw [Run_of_storage_error c env tr d e hMon hSto]
      exact ⟨evs, htr, hsorted, hsto⟩
    | none =>
      rw [Run_of_storage_ok c env tr d hMon hSto]
      obtain ⟨more, hmore, hge, hmsorted⟩ :=
        loadCredentials_trace env (d.afterStorage c env tr).trace (d.afterStorage c env tr).d
      refine ⟨evs ++ more, by rw [hmore, htr, List.append_assoc], ?_, ?_⟩
      · simp only [List.map_append, List.pairwise_append]
        refine ⟨hsorted, hmsorted, ?_⟩
        intro a ha b hb
        simp only [List.mem_map] at ha hb
        obtain ⟨x, hx, rfl⟩ := ha
        obtain ⟨y, hy, rfl⟩ := hb
        have h1 := hstep x hx
        have h2 := hge y hy
        omega
      · intro s lg hs
        rcases List.mem_append.1 hs with hs | hs
        · exact hsto s lg hs
        · have := hge _ hs
          simp [Event.step] at this

/-! ## Run -/

/-- C3: `Run` stops at the first failing step.  If `initMonitoring` fails,
`Run` returns exactly its error, the daemon is as it was and the host name
lookup is the only call made, so storage construction is not attempted.  If
`initMonitoring` succeeds and `initStorage` fails, `Run` returns exactly the
outcome of `initStorage`, and every event of the run is a monitor or storage
event: no credential load, no server construction, no serve task.  Whenever
`initStorage` is reached the monitor is already set, and a storage under
construction carries that monitor.  In every run the events follow the order
monitor, storage, TLS credentials, server construction, serve tasks. -/
theorem Run_stops_at_first_failure (c : EngineNames) (env : Env) (tr : List Event)
    (d : Daemon) :
    (∀ e, (d.initMonitoring c env tr).err = some e →
      d.Run c env tr = ⟨d, tr ++ [Event.Hostname], some e⟩) ∧
    ((d.initMonitoring c env tr).err = none →
      ∀ e, (d.afterStorage c env tr).err = some e →
        d.Run c env tr = d.afterStorage c env tr ∧
        (d.Run c env tr).err = some e ∧
        (∀ ev ∈ (d.Run c env tr).emitted tr, ev.step ≤ 1) ∧
        tasksStarted ((d.Run c env tr).emitted tr) = []) ∧
    ((d.initMonitoring c env tr).err = none →
      (d.initMonitoring c env tr).d.monitor ≠ none) ∧
    ((∃ ev ∈ (d.Run c env tr).emitted tr, ev.step = 1) →
      (d.initMonitoring c env tr).err = none ∧
      (d.initMonitoring c env tr).d.monitor ≠ none) ∧
    (∀ s lg, Event.initStorage s lg ∈ (d.Run c env tr).emitted tr →
      ∃ table db, s = Storage.postgres table db (d.initMonitoring c env tr).d.monitor) ∧
    List.Pairwise (fun a b => a ≤ b) (((d.Run c env tr).emitted tr).map Event.step) := by
  have hFail : ∀ e, (d.initMonitoring c env tr).err = some e →
      d.Run c env tr = ⟨d, tr ++ [Event.Hostname], some e⟩ := by
    intro e he
    rw [Run_of_monitoring_error c env tr d e he]
    rcases initMonitoring_cases c env tr d with ⟨e2, h⟩ | ⟨m, evs2, h, _⟩
    · rw [h] at he ⊢
      simp only [Option.some.injEq] at he
      rw [he]
    · rw [h] at he
      cases he
  have hSet : (d.initMonitoring c env tr).err = none →
      (d.initMonitoring c env tr).d.monitor ≠ none := by
    intro hMon
    rcases initMonitoring_cases c env tr d with ⟨e2, h⟩ | ⟨m, evs2, h, _⟩
    · rw [h] at hMon
      cases hMon
    · rw [h]
      simp
  obtain ⟨evs, htr, hsorted, hsto⟩ := Run_trace c env tr d
  have hEm : (d.Run c env tr).emitted tr = evs := by
    simp [Outcome.emitted, htr]
  refine ⟨hFail, ?_, hSet, ?_, ?_, ?_⟩
  · intro hMon e hSto
    obtain ⟨evs1, htr1, hstep1, _, _⟩ := afterStorage_trace c env tr d
    have hRun := Run_of_storage_error c env tr d e hMon hSto
    have hEm1 : (d.Run c env tr).emitted tr = evs1 := by
      simp [Outcome.emitted, hRun, htr1]
    refine ⟨hRun, by rw [hRun, hSto], by rw [hEm1]; exact hstep1, ?_⟩
    rw [hEm1]
    exact tasksStarted_of_step_lt evs1 (fun ev hev => by have := hstep1 ev hev; omega)
  · rintro ⟨ev, hev, hstep⟩
    cases hMon : (d.initMonitoring c env tr).err with
    | none => exact ⟨rfl, hSet hMon⟩
    | some e =>
      rw [hFail e hMon, emitted_append] at hev
      simp only [List.mem_singleton] at hev
      rw [hev] at hstep
      simp [Event.step] at hstep
  · rw [hEm]
    exact hsto
  · rw [hEm]
    exact hsorted

/-- Witness for `Run_stops_at_first_failure`: with the package function
`initStorage` failing, `Run` on the sample daemon returns that error after
the storage step and starts no task. -/
theorem Run_stops_at_first_failure_witness :
    ((NewDaemon sampleNames sampleOpts).initMonitoring sampleNames envStorageFails []).err
      = none ∧
    ((NewDaemon sampleNames sampleOpts).afterStorage sampleNames envStorageFails []).err
      = some (Error.external ⟨"table is missing"⟩) ∧
    (NewDaemon sampleNames sampleOpts).Run sampleNames envStorageFails [] =
      (NewDaemon sampleNames sampleOpts).afterStorage sampleNames envStorageFails [] :=
  ⟨by decide, by decide,
    ((Run_stops_at_first_failure sampleNames envStorageFails []
      (NewDaemon sampleNames sampleOpts)).2.1 (by decide)
      (Error.external ⟨"table is missing"⟩) (by decide)).1⟩

/-- C4: with TLS enabled and monitor and storage construction succeeding, a
failing credential load makes `Run` return the loader's error, which is not
nil; the load is the last call of the run, no serve task is started, and the
daemon's accumulated RPC server options are unchanged. -/
theorem Run_credentials_failure (c : EngineNames) (env : Env) (tr : List Event) (d : Daemon)
    (hTLS : d.opts.TLS = true)
    (hMon : (d.initMonitoring c env tr).err = none)
    (hSto : (d.afterStorage c env tr).err = none)
    (e : ExtError)
    (hCreds : env.NewServerTLSFromFile (d.afterStorage c env tr).trace
      d.opts.TLSCertFile d.opts.TLSKeyFile = .error e) :
    (d.Run c env tr).err = some (Error.external e) ∧
    (d.Run c env tr).err ≠ none ∧
    (d.Run c env tr).trace = (d.afterStorage c env tr).trace ++
      [Event.NewServerTLSFromFile d.opts.TLSCertFile d.opts.TLSKeyFile] ∧
    tasksStarted ((d.Run c env tr).emitted tr) = [] ∧
    (d.Run c env tr).d.rpcOptions = d.rpcOptions := by
  obtain ⟨hopts, hrpc, _, _, _, _⟩ := afterStorage_frame c env tr d
  obtain ⟨evs, htr, hstep, _, _⟩ := afterStorage_trace c env tr d
  have hRun : d.Run c env tr =
      ⟨(d.afterStorage c env tr).d, (d.afterStorage c env tr).trace ++
        [Event.NewServerTLSFromFile d.opts.TLSCertFile d.opts.TLSKeyFile],
        some (Error.external e)⟩ := by
    rw [Run_of_storage_ok c env tr d hMon hSto]
    unfold Daemon.loadCredentials
    rw [hopts]
    simp [hTLS, hCreds]
  rw [hRun]
  refine ⟨rfl, by simp, rfl, ?_, hrpc⟩
  rw [htr, List.append_assoc, emitted_append]
  apply tasksStarted_of_step_lt
  intro ev hev
  rcases List.mem_append.1 hev with hev | hev
  · have := hstep ev hev
    omega
  · simp only [List.mem_singleton] at hev
    rw [hev]
    simp [Event.step]

/-- Witness for `Run_credentials_failure`: the sample daemon with TLS on and
a certificate file that does not exist. -/
theorem Run_credentials_failure_witness :
    (({ NewDaemon sampleNames sampleOpts with
        opts := { sampleOpts with TLS := true, TLSCertFile := "cert.pem" } } : Daemon).Run
      sampleNames envNoCert []).err
      = some (Error.external ⟨"open cert.pem: no such file"⟩) :=
  (Run_credentials_failure sampleNames envNoCert []
    { NewDaemon sampleNames sampleOpts with
      opts := { sampleOpts with TLS := true, TLSCertFile := "cert.pem" } }
    (by decide) (by decide) (by decide) ⟨"open cert.pem: no such file"⟩ rfl).1

/-- C7: when monitor construction, storage construction and (with TLS
enabled) the credential load all succeed, `Run` returns nil.  The serve tasks
it starts are exactly the RPC serve task on the RPC listener, followed by the
debug serve task when a debug listener is present: one task without a debug
listener, two with one.  Starting them is the last thing `Run` does; it
returns without running either serve loop. -/
theorem Run_success (c : EngineNames) (env : Env) (tr : List Event) (d : Daemon)
    (hMon : (d.initMonitoring c env tr).err = none)
    (hSto : (d.afterStorage c env tr).err = none)
    (hCreds : d.opts.TLS = true → ∃ creds, env.NewServerTLSFromFile
      (d.afterStorage c env tr).trace d.opts.TLSCertFile d.opts.TLSKeyFile = .ok creds) :
    (d.Run c env tr).err = none ∧
    tasksStarted ((d.Run c env tr).emitted tr) =
      Task.serveRPC (d.Run c env tr).d.rpcOptions d.rpcListener ::
        d.debugListener.toList.map Task.serveDebug ∧
    (d.debugListener = none → (tasksStarted ((d.Run c env tr).emitted tr)).length = 1) ∧
    (d.debugListener ≠ none → (tasksStarted ((d.Run c env tr).emitted tr)).length = 2) ∧
    (∃ before, (∀ ev ∈ before, ev.step < 4) ∧
      (d.Run c env tr).emitted tr = before ++
        (Task.serveRPC (d.Run c env tr).d.rpcOptions d.rpcListener ::
          d.debugListener.toList.map Task.serveDebug).map Event.go) := by
  obtain ⟨hopts, hrpc, _, hl, hdl, _⟩ := afterStorage_frame c env tr d
  obtain ⟨evs, htr, hstep, _, _⟩ := afterStorage_trace c env tr d
  rcases loadCredentials_cases env (d.afterStorage c env tr).trace (d.afterStorage c env tr).d
    with ⟨e, hT, he, _⟩ | ⟨pre, opts, hpre, h⟩
  · rw [hopts] at hT he
    obtain ⟨creds, hc⟩ := hCreds hT
    rw [hc] at he
    cases he
  · have hRun := Run_of_storage_ok c env tr d hMon hSto
    rw [h, hl, hdl, htr] at hRun
    have hMain : ∃ before, (∀ ev ∈ before, ev.step < 4) ∧
        (d.Run c env tr).emitted tr = before ++
          (Task.serveRPC (d.Run c env tr).d.rpcOptions d.rpcListener ::
            d.debugListener.toList.map Task.serveDebug).map Event.go := by
      refine ⟨evs ++ pre ++ [Event.NewServer opts,
        Event.newRPCServer (d.afterStorage c env tr).d.logger (d.afterStorage c env tr).d.storage
          (d.afterStorage c env tr).d.monitor, Event.RegisterRPCServer], ?_, ?_⟩
      · intro ev hev
        simp only [List.mem_append, List.mem_cons, List.not_mem_nil, or_false] at hev
        rcases hev with (hev | hev) | rfl | rfl | rfl
        · have := hstep ev hev
          omega
        · rw [hpre ev hev]
          omega
        all_goals simp [Event.step]
      · rw [hRun]
        simp [Outcome.emitted]
    obtain ⟨before, hb, hEm⟩ := hMain
    have hTasks : tasksStarted ((d.Run c env tr).emitted tr) =
        Task.serveRPC (d.Run c env tr).d.rpcOptions d.rpcListener ::
          d.debugListener.toList.map Task.serveDebug := by
      rw [hEm, tasksStarted_append, tasksStarted_of_step_lt before hb]
      cases d.debugListener <;> simp [tasksStarted]
    refine ⟨by rw [hRun], hTasks, ?_, ?_, ⟨before, hb, hEm⟩⟩
    · intro hnone
      rw [hTasks, hnone]
      rfl
    · intro hsome
      rw [hTasks]
      cases hd : d.debugListener with
      | none => exact absurd hd hsome
      | some l => rfl

/-- Witness for `Run_success`: the sample daemon with TLS on, which has a
debug listener, starts the RPC serve task (its server built with the loaded
credentials) and the debug serve task. -/
theorem Run_success_witness :
    (({ NewDaemon sampleNames sampleOpts with
        opts := { sampleOpts with TLS := true } } : Daemon).Run sampleNames envUp []).err
      = none ∧
    tasksStarted ((({ NewDaemon sampleNames sampleOpts with
        opts := { sampleOpts with TLS := true } } : Daemon).Run sampleNames envUp []).emitted [])
      = [Task.serveRPC [ServerOption.Creds ⟨7⟩] ⟨1⟩, Task.serveDebug ⟨2⟩] :=
  ⟨(Run_success sampleNames envUp []
      { NewDaemon sampleNames sampleOpts with opts := { sampleOpts with TLS := true } }
      (by decide) (by decide) (fun _ => ⟨⟨7⟩, rfl⟩)).1,
    by decide⟩

/-! ## Close -/

/-- C5: `Close` always closes the RPC listener first.  If that close fails,
`Close` returns exactly that error and makes no other call, so the debug
listener is not closed.  If it succeeds and a debug listener exists, `Close`
closes it next and returns exactly the result of that close; if it succeeds
and there is no debug listener, `Close` returns nil.  The daemon itself is
unchanged. -/
theorem Close_contract (env : Env) (tr : List Event) (d : Daemon) :
    (∃ rest, (d.Close env tr).emitted tr = Event.Close d.rpcListener :: rest) ∧
    (∀ e, env.Close tr d.rpcListener = some e →
      d.Close env tr = ⟨d, tr ++ [Event.Close d.rpcListener], some (Error.external e)⟩) ∧
    (env.Close tr d.rpcListener = none → ∀ l, d.debugListener = some l →
      d.Close env tr = ⟨d, tr ++ [Event.Close d.rpcListener, Event.Close l],
        (env.Close (tr ++ [Event.Close d.rpcListener]) l).map Error.external⟩) ∧
    (env.Close tr d.rpcListener = none → d.debugListener = none →
      d.Close env tr = ⟨d, tr ++ [Event.Close d.rpcListener], none⟩) := by
  refine ⟨?_, ?_, ?_, ?_⟩
  · unfold Daemon.Close
    cases env.Close tr d.rpcListener with
    | some e => exact ⟨[], by simp [Outcome.emitted]⟩
    | none =>
      cases d.debugListener with
      | some l => exact ⟨[Event.Close l], by simp [Outcome.emitted]⟩
      | none => exact ⟨[], by simp [Outcome.emitted]⟩
  · intro e he
    simp [Daemon.Close, he]
  · intro h l hl
    simp [Daemon.Close, h, hl]
  · intro h hl
    simp [Daemon.Close, h, hl]

/-- Witness for `Close_contract`: when closing the RPC listener fails, the
debug listener of the sample daemon is left alone. -/
theorem Close_contract_witness :
    (NewDaemon sampleNames sampleOpts).Close envCloseFails [] =
      ⟨NewDaemon sampleNames sampleOpts, [Event.Close ⟨1⟩],
        some (Error.external ⟨"use of closed network connection"⟩)⟩ :=
  (Close_contract envCloseFails [] (NewDaemon sampleNames sampleOpts)).2.1
    ⟨"use of closed network connection"⟩ rfl

/-! ## The caller's options -/

/-- C8 fails as stated: `NewDaemon` writes the default table name into the
options it was given; the caller's `StoragePostgresTable` was empty before
the call and is "session" after it. -/
theorem NewDaemon_writes_default_table :
    ({ sampleOpts with StoragePostgresTable := "" } : DaemonOpts).StoragePostgresTable = "" ∧
    (NewDaemon sampleNames { sampleOpts with StoragePostgresTable := "" }).opts.StoragePostgresTable
      = "session" ∧
    (NewDaemon sampleNames { sampleOpts with StoragePostgresTable := "" }).opts
      ≠ { sampleOpts with StoragePostgresTable := "" } := by
  decide

/-- C8, as the code has it: `Run`, `Close` and `Addr` leave every field of the
options unchanged.  `NewDaemon` changes at most `StorageEngine` and
`StoragePostgresTable`, each only when it is empty; options in which both are
non-empty are the same after `NewDaemon` as before. -/
theorem DaemonOpts_frame (c : EngineNames) (env : Env) (tr : List Event) (d : Daemon)
    (opts : DaemonOpts) :
    (d.Run c env tr).d.opts = d.opts ∧
    (d.Close env tr).d.opts = d.opts ∧
    (d.Addr env tr).2.1.opts = d.opts ∧
    (NewDaemon c opts).opts =
      { opts with
        StorageEngine :=
          if opts.StorageEngine = "" then c.StorageEnginePostgres else opts.StorageEngine
        StoragePostgresTable :=
          if opts.StoragePostgresTable = "" then "session" else opts.StoragePostgresTable } ∧
    (opts.StorageEngine ≠ "" → opts.StoragePostgresTable ≠ "" →
      (NewDaemon c opts).opts = opts) := by
  refine ⟨?_, ?_, rfl, ?_, ?_⟩
  · obtain ⟨hopts, _⟩ := afterStorage_frame c env tr d
    cases hMon : (d.initMonitoring c env tr).err with
    | some e =>
      rw [Run_of_monitoring_error c env tr d e hMon, initMonitoring_frame]
    | none =>
      cases hSto : (d.afterStorage c env tr).err with
      | some e =>
        rw [Run_of_storage_error c env tr d e hMon hSto, hopts]
      | none =>
        rw [Run_of_storage_ok c env tr d hMon hSto]
        rcases loadCredentials_cases env (d.afterStorage c env tr).trace
          (d.afterStorage c env tr).d with ⟨e, _, _, h⟩ | ⟨pre, o, _, h⟩
        · rw [h, hopts]
        · rw [h]
          exact hopts
  · unfold Daemon.Close
    cases env.Close tr d.rpcListener with
    | some e => rfl
    | none => cases d.debugListener <;> rfl
  · unfold NewDaemon
    by_cases h1 : opts.StorageEngine = "" <;> by_cases h2 : opts.StoragePostgresTable = "" <;>
      simp [h1, h2]
  · intro h1 h2
    unfold NewDaemon
    simp [h1, h2]

/-- Witness for `DaemonOpts_frame`: the sample options name both the engine
and the table, and `NewDaemon` returns them as they were. -/
theorem DaemonOpts_frame_witness :
    sampleOpts.StorageEngine ≠ "" ∧ sampleOpts.StoragePostgresTable ≠ "" ∧
    (NewDaemon sampleNames sampleOpts).opts = sampleOpts :=
  ⟨by decide, by decide,
    (DaemonOpts_frame sampleNames envUp [] (NewDaemon sampleNames sampleOpts) sampleOpts).2.2.2.2
      (by decide) (by decide)⟩

/-! ## Storage and monitor over the daemon's lifetime -/

theorem applyOps_without_Run (c : EngineNames) (env : Env) (ops : List Op)
    (hOps : ∀ op ∈ ops, op ≠ Op.Run) (s : Daemon × List Event) :
    (applyOps c env ops s).1 = s.1 := by
  induction ops generalizing s with
  | nil => rfl
  | cons op rest ih =>
    have hrest : ∀ o ∈ rest, o ≠ Op.Run := fun o ho => hOps o (List.mem_cons_of_mem _ ho)
    have hop : op ≠ Op.Run := hOps op (List.mem_cons_self _ _)
    have hstep : (op.apply c env s).1 = s.1 := by
      cases op with
      | Run => exact absurd rfl hop
      | Close =>
        simp only [Op.apply, Daemon.Close]
        cases env.Close s.2 s.1.rpcListener with
        | some e => rfl
        | none => cases s.1.debugListener <;> rfl
      | Addr => rfl
    have := ih hrest (op.apply c env s)
    simp only [applyOps, List.foldl_cons] at this ⊢
    rw [this, hstep]

/-- C9 fails as stated: after a successful `Run` of the sample daemon, a
further `Run` connects to the database again and stores a new `Storage`
in place of the first. -/
theorem second_Run_replaces_storage :
    ((NewDaemon sampleNames sampleOpts).Run sampleNames envUp []).err = none ∧
    ((NewDaemon sampleNames sampleOpts).Run sampleNames envUp []).d.storage
      = some (Storage.postgres "session" ⟨1⟩ (some monitoring.empty)) ∧
    (applyOps sampleNames envUp [Op.Run]
      (((NewDaemon sampleNames sampleOpts).Run sampleNames envUp []).d,
        ((NewDaemon sampleNames sampleOpts).Run sampleNames envUp []).trace)).1.storage
      = some (Storage.postgres "session" ⟨9⟩ (some monitoring.empty)) ∧
    (applyOps sampleNames envUp [Op.Run]
      (((NewDaemon sampleNames sampleOpts).Run sampleNames envUp []).d,
        ((NewDaemon sampleNames sampleOpts).Run sampleNames envUp []).trace)).1.storage
      ≠ ((NewDaemon sampleNames sampleOpts).Run sampleNames envUp []).d.storage := by
  decide

theorem storagesBuilt_append (xs ys : List Event) :
    storagesBuilt (xs ++ ys) = storagesBuilt xs ++ storagesBuilt ys := by
  simp [storagesBuilt]

theorem storagesBuilt_of_step_ne (evs : List Event) (h : ∀ ev ∈ evs, ev.step ≠ 1) :
    storagesBuilt evs = [] := by
  induction evs with
  | nil => rfl
  | cons ev rest ih =>
    have hrest : storagesBuilt rest = [] := ih (fun x hx => h x (List.mem_cons_of_mem _ hx))
    have hev := h ev (List.mem_cons_self _ _)
    cases ev <;> simp_all [storagesBuilt, Event.step]

/-- When `initStorage` returns nil it took the postgres case: the connection
succeeded, the package function `initStorage` returned a nil error, and the
`Storage` it returned is now `d.storage`. -/
theorem initStorage_ok (c : EngineNames) (env : Env) (tr : List Event) (d : Daemon)
    (h : (d.initStorage c env tr).err = none) :
    ∃ db,
      (env.initStorage (tr ++ [Event.initPostgres d.opts.StoragePostgresAddress d.logger])
        (Storage.postgres d.opts.StoragePostgresTable db d.monitor) d.logger).2 = none ∧
      d.initStorage c env tr =
        ⟨{ d with storage :=
            (env.initStorage (tr ++ [Event.initPostgres d.opts.StoragePostgresAddress d.logger])
              (Storage.postgres d.opts.StoragePostgresTable db d.monitor) d.logger).1 },
          tr ++ [Event.initPostgres d.opts.StoragePostgresAddress d.logger,
            Event.initStorage (Storage.postgres d.opts.StoragePostgresTable db d.monitor)
              d.logger],
          none⟩ := by
  unfold Daemon.initStorage at h ⊢
  by_cases h1 : d.opts.StorageEngine = c.StorageEngineInMemory
  · rw [if_pos h1] at h
    cases h
  · rw [if_neg h1] at h ⊢
    by_cases h2 : d.opts.StorageEngine = c.StorageEnginePostgres
    · rw [if_pos h2] at h ⊢
      cases hp : env.initPostgres tr d.opts.StoragePostgresAddress d.logger with
      | error e =>
        rw [hp] at h
        cases h
      | ok db =>
        rw [hp] at h
        simp only [Option.map_eq_none'] at h
        exact ⟨db, h, by simp [h]⟩
    · rw [if_neg h2] at h
      by_cases h3 : d.opts.StorageEngine = c.StorageEngineRedis
      · rw [if_pos h3] at h
        cases h
      · rw [if_neg h3] at h
        cases h

/-- The whole of a successful `Run`: the monitor set, one Postgres storage
built with that monitor and handed to the package function `initStorage`,
whose result is stored, then credentials, server and serve tasks. -/
theorem Run_ok_shape (c : EngineNames) (env : Env) (tr : List Event) (d : Daemon)
    (hRun : (d.Run c env tr).err = none) :
    ∃ m evs0 db later,
      (∀ ev ∈ evs0, ev.step = 0) ∧ (∀ ev ∈ later, 2 ≤ ev.step) ∧
      (env.initStorage
        (tr ++ (Event.Hostname :: evs0 ++
          [Event.initPostgres d.opts.StoragePostgresAddress d.logger]))
        (Storage.postgres d.opts.StoragePostgresTable db (some m)) d.logger).2 = none ∧
      (d.Run c env tr).d.monitor = some m ∧
      (d.Run c env tr).d.storage =
        (env.initStorage
          (tr ++ (Event.Hostname :: evs0 ++
            [Event.initPostgres d.opts.StoragePostgresAddress d.logger]))
          (Storage.postgres d.opts.StoragePostgresTable db (some m)) d.logger).1 ∧
      (d.Run c env tr).emitted tr =
        (Event.Hostname :: evs0 ++
          [Event.initPostgres d.opts.StoragePostgresAddress d.logger]) ++
        Event.initStorage (Storage.postgres d.opts.StoragePostgresTable db (some m)) d.logger
          :: later := by
  rcases initMonitoring_cases c env tr d with ⟨e, hinit⟩ | ⟨m, evs0, hinit, hevs0⟩
  · have hMon : (d.initMonitoring c env tr).err = some e := by rw [hinit]
    rw [Run_of_monitoring_error c env tr d e hMon, hMon] at hRun
    cases hRun
  · have hMon : (d.initMonitoring c env tr).err = none := by rw [hinit]
    have hAfter : d.afterStorage c env tr =
        Daemon.initStorage c env (tr ++ Event.Hostname :: evs0)
          { d with monitor := some m } := by
      unfold Daemon.afterStorage
      rw [hinit]
    cases hSto : (d.afterStorage c env tr).err with
    | some e =>
      rw [Run_of_storage_error c env tr d e hMon hSto, hSto] at hRun
      cases hRun
    | none =>
      obtain ⟨db, hnil, hsto⟩ := initStorage_ok c env (tr ++ Event.Hostname :: evs0)
        { d with monitor := some m } (by rw [← hAfter]; exact hSto)
      rw [← hAfter] at hsto
      simp only [List.append_assoc, List.cons_append] at hnil hsto
      have hRunEq := Run_of_storage_ok c env tr d hMon hSto
      obtain ⟨more, hmore, hge, _⟩ :=
        loadCredentials_trace env (d.afterStorage c env tr).trace (d.afterStorage c env tr).d
      have hframe : ((d.afterStorage c env tr).d.loadCredentials env
          (d.afterStorage c env tr).trace).d.monitor = (d.afterStorage c env tr).d.monitor ∧
          ((d.afterStorage c env tr).d.loadCredentials env
          (d.afterStorage c env tr).trace).d.storage = (d.afterStorage c env tr).d.storage := by
        rcases loadCredentials_cases env (d.afterStorage c env tr).trace
          (d.afterStorage c env tr).d with ⟨e, _, _, h⟩ | ⟨pre, o, _, h⟩
        · rw [h]
          exact ⟨rfl, rfl⟩
        · rw [h]
          exact ⟨rfl, rfl⟩
      refine ⟨m, evs0, db, more, hevs0, hge, ?_, ?_, ?_, ?_⟩
      · simpa using hnil
      · rw [hRunEq, hframe.1, hsto]
      · rw [hRunEq, hframe.2, hsto]
        simp
      · unfold Outcome.emitted
        rw [hRunEq, hmore, hsto]
        simp

/-- C9, as the code has it: once `Run` has returned success the daemon holds
one monitor and one storage.  The monitor field is set.  During that `Run`
exactly one storage was built, a Postgres storage carrying that monitor, and
the storage field is what the package function `initStorage` returned for it
together with a nil error; so the storage field is set whenever that function
keeps the Storage contract.  In every state reached from there by any
sequence of `Close` and `Addr` operations the storage and monitor fields
(indeed the whole daemon) are the ones that `Run` left.  A further `Run` is
not covered: the code does not guard against it. -/
theorem storage_monitor_kept (c : EngineNames) (env : Env) (tr : List Event) (d : Daemon)
    (hRun : (d.Run c env tr).err = none) (ops : List Op) (hOps : ∀ op ∈ ops, op ≠ Op.Run) :
    (d.Run c env tr).d.monitor ≠ none ∧
    (env.StorageContract → (d.Run c env tr).d.storage ≠ none) ∧
    (∃ db before later,
      (d.Run c env tr).emitted tr = before ++
        Event.initStorage
          (Storage.postgres d.opts.StoragePostgresTable db (d.Run c env tr).d.monitor)
          d.logger :: later ∧
      storagesBuilt ((d.Run c env tr).emitted tr) =
        [Storage.postgres d.opts.StoragePostgresTable db (d.Run c env tr).d.monitor] ∧
      (env.initStorage (tr ++ before)
        (Storage.postgres d.opts.StoragePostgresTable db (d.Run c env tr).d.monitor)
        d.logger).2 = none ∧
      (d.Run c env tr).d.storage =
        (env.initStorage (tr ++ before)
          (Storage.postgres d.opts.StoragePostgresTable db (d.Run c env tr).d.monitor)
          d.logger).1) ∧
    (applyOps c env ops ((d.Run c env tr).d, (d.Run c env tr).trace)).1.storage
      = (d.Run c env tr).d.storage ∧
    (applyOps c env ops ((d.Run c env tr).d, (d.Run c env tr).trace)).1.monitor
      = (d.Run c env tr).d.monitor ∧
    (applyOps c env ops ((d.Run c env tr).d, (d.Run c env tr).trace)).1 = (d.Run c env tr).d := by
  have hkeep := applyOps_without_Run c env ops hOps ((d.Run c env tr).d, (d.Run c env tr).trace)
  obtain ⟨m, evs0, db, later, hevs0, hlater, hnil, hmon, hsto, hem⟩ :=
    Run_ok_shape c env tr d hRun
  refine ⟨by rw [hmon]; simp, ?_, ?_, by rw [hkeep], by rw [hkeep], hkeep⟩
  · intro hContract
    rw [hsto]
    exact hContract _ _ _ hnil
  · refine ⟨db, Event.Hostname :: evs0 ++
      [Event.initPostgres d.opts.StoragePostgresAddress d.logger], later, ?_, ?_, ?_, ?_⟩
    · rw [hmon]
      exact hem
    · rw [hmon, hem, storagesBuilt_append]
      have h1 : storagesBuilt (Event.Hostname :: evs0 ++
          [Event.initPostgres d.opts.StoragePostgresAddress d.logger]) = [] := by
        rw [storagesBuilt_append, storagesBuilt_of_step_ne (Event.Hostname :: evs0)]
        · rfl
        · intro ev hev
          rcases List.mem_cons.1 hev with rfl | hev
          · simp [Event.step]
          · rw [hevs0 ev hev]
            omega
      have h2 : storagesBuilt later = [] := by
        apply storagesBuilt_of_step_ne
        intro ev hev
        have := hlater ev hev
        omega
      rw [h1]
      simp [storagesBuilt] at h2 ⊢
      exact h2
    · rw [hmon]
      exact hnil
    · rw [hmon]
      exact hsto

/-- Witness for `storage_monitor_kept`: the sample daemon after `Run`, then
`Addr`, `Close`, `Addr`, in surroundings that keep the Storage contract. -/
theorem storage_monitor_kept_witness :
    ((NewDaemon sampleNames sampleOpts).Run sampleNames envUp []).err = none ∧
    envUp.StorageContract ∧
    ((NewDaemon sampleNames sampleOpts).Run sampleNames envUp []).d.storage ≠ none ∧
    (applyOps sampleNames envUp [Op.Addr, Op.Close, Op.Addr]
      (((NewDaemon sampleNames sampleOpts).Run sampleNames envUp []).d,
        ((NewDaemon sampleNames sampleOpts).Run sampleNames envUp []).trace)).1.storage
      = ((NewDaemon sampleNames sampleOpts).Run sampleNames envUp []).d.storage :=
  ⟨by decide,
    fun _ _ _ _ => by simp [envUp],
    (storage_monitor_kept sampleNames envUp [] (NewDaemon sampleNames sampleOpts) (by decide)
      [Op.Addr, Op.Close, Op.Addr] (by decide)).2.1 (fun _ _ _ _ => by simp [envUp]),
    (storage_monitor_kept sampleNames envUp [] (NewDaemon sampleNames sampleOpts) (by decide)
      [Op.Addr, Op.Close, Op.Addr] (by decide)).2.2.2.1⟩

/-! ## Defaults -/

theorem Run_unknownStorageEngine (c : EngineNames) (env : Env) (tr : List Event) (d : Daemon)
    (h : (d.Run c env tr).err = some Error.unknownStorageEngine) :
    d.opts.StorageEngine ≠ c.StorageEnginePostgres := by
  intro hEngine
  cases hMon : (d.initMonitoring c env tr).err with
  | some e =>
    rw [Run_of_monitoring_error c env tr d e hMon] at h
    unfold Daemon.initMonitoring at h
    cases hh : env.Hostname tr with
    | error e => simp [hh] at h
    | ok hostname =>
      simp only [hh] at h
      split_ifs at h
      simp at h
  | none =>
    have hOpts : (d.initMonitoring c env tr).d.opts.StorageEngine = c.StorageEnginePostgres := by
      rw [initMonitoring_frame]
      exact hEngine
    have hNot : (d.afterStorage c env tr).err ≠ some Error.unknownStorageEngine := by
      unfold Daemon.afterStorage Daemon.initStorage
      rw [hOpts]
      by_cases hIM : c.StorageEnginePostgres = c.StorageEngineInMemory
      · rw [if_pos hIM]
        simp
      · rw [if_neg hIM, if_pos rfl]
        cases env.initPostgres (d.initMonitoring c env tr).trace
          (d.initMonitoring c env tr).d.opts.StoragePostgresAddress
          (d.initMonitoring c env tr).d.logger with
        | error e => simp
        | ok db =>
          simp only
          cases (env.initStorage _ _ _).2 <;> simp
    cases hSto : (d.afterStorage c env tr).err with
    | some e =>
      rw [Run_of_storage_error c env tr d e hMon hSto, hSto] at h
      rw [hSto, h] at hNot
      exact hNot rfl
    | none =>
      rw [Run_of_storage_ok c env tr d hMon hSto] at h
      rcases loadCredentials_cases env (d.afterStorage c env tr).trace
        (d.afterStorage c env tr).d with ⟨e, _, _, h2⟩ | ⟨pre, o, _, h2⟩
      · rw [h2] at h
        simp at h
      · rw [h2] at h
        simp at h

/-- C10: `NewDaemon` applies two defaults to the options the daemon uses: an
empty `StorageEngine` becomes the postgres engine and an empty
`StoragePostgresTable` becomes "session"; a non-empty value of either is kept.
The logger, RPC options, RPC listener and debug listener of the daemon are
those of the options, and its monitor and storage are unset.  A daemon built
from options with an empty `StorageEngine` never gets the "unknown storage
engine" error from `Run`. -/
theorem NewDaemon_defaults (c : EngineNames) (opts : DaemonOpts) :
    (opts.StorageEngine = "" →
      (NewDaemon c opts).opts.StorageEngine = c.StorageEnginePostgres) ∧
    (opts.StorageEngine ≠ "" →
      (NewDaemon c opts).opts.StorageEngine = opts.StorageEngine) ∧
    (opts.StoragePostgresTable = "" →
      (NewDaemon c opts).opts.StoragePostgresTable = "session") ∧
    (opts.StoragePostgresTable ≠ "" →
      (NewDaemon c opts).opts.StoragePostgresTable = opts.StoragePostgresTable) ∧
    (NewDaemon c opts).logger = opts.Logger ∧
    (NewDaemon c opts).rpcOptions = opts.RPCOptions ∧
    (NewDaemon c opts).rpcListener = opts.RPCListener ∧
    (NewDaemon c opts).debugListener = opts.DebugListener ∧
    (NewDaemon c opts).monitor = none ∧
    (NewDaemon c opts).storage = none ∧
    (opts.StorageEngine = "" → ∀ (env : Env) (tr : List Event),
      ((NewDaemon c opts).Run c env tr).err ≠ some Error.unknownStorageEngine) := by
  have hE : opts.StorageEngine = "" →
      (NewDaemon c opts).opts.StorageEngine = c.StorageEnginePostgres := by
    intro h
    unfold NewDaemon
    by_cases h2 : opts.StoragePostgresTable = "" <;> simp [h, h2]
  refine ⟨hE, ?_, ?_, ?_, ?_, ?_, ?_, ?_, ?_, ?_, ?_⟩
  · intro h
    unfold NewDaemon
    by_cases h2 : opts.StoragePostgresTable = "" <;> simp [h, h2]
  · intro h
    unfold NewDaemon
    by_cases h1 : opts.StorageEngine = "" <;> simp [h, h1]
  · intro h
    unfold NewDaemon
    by_cases h1 : opts.StorageEngine = "" <;> simp [h, h1]
  all_goals first
    | (intro h env tr hRun
       exact Run_unknownStorageEngine c env tr (NewDaemon c opts) hRun (hE h))
    | (unfold NewDaemon
       by_cases h1 : opts.StorageEngine = "" <;> by_cases h2 : opts.StoragePostgresTable = "" <;>
         simp [h1, h2])

/-- Witness for `NewDaemon_defaults`: options with an empty `StorageEngine`
get the postgres engine, and `Run` on the daemon built from them succeeds. -/
theorem NewDaemon_defaults_witness :
    ({ sampleOpts with StorageEngine := "" } : DaemonOpts).StorageEngine = "" ∧
    (NewDaemon sampleNames { sampleOpts with StorageEngine := "" }).opts.StorageEngine
      = "postgres" ∧
    ((NewDaemon sampleNames { sampleOpts with StorageEngine := "" }).Run sampleNames envUp []).err
      ≠ some Error.unknownStorageEngine :=
  ⟨by decide,
    (NewDaemon_defaults sampleNames { sampleOpts with StorageEngine := "" }).1 (by decide),
    (NewDaemon_defaults sampleNames { sampleOpts with StorageEngine := "" }).2.2.2.2.2.2.2.2.2.2
      (by decide) envUp []⟩

end Mnemosyne
